import Mathlib

/-!
Verification of the lexbor CSS syntax table generator
(`utils/lexbor/css/syntax/definitions.py` of lexbor 2.5.0, vendored in
z-html).  The script classifies byte values into name-start / name /
other tags and renders a fixed C lookup table
`lxb_css_syntax_res_name_map` through the `lexbor.LXB.Res` encoder.

The classifier and driver are embedded directly from the Python source.
The `Res` encoder lives in `utils/lexbor/LXB.py`, which is not among the
provided sources, so it is modelled from the specification (sections 4.2
and 6): a capacity-annotated accumulation buffer rendered once into a
prepended constant line, an array declaration header, rows of
comma-separated entries, and a closing terminator.
-/

namespace CssSyntaxDefinitions

/-- Tag values of the classification table, with the numeric codes that
are part of the contract (0x00, 0x01, 0x02). -/
inductive Tag where
  | none
  | nameStart
  | name
deriving DecidableEq, Repr

/-- Numeric code of a tag, as rendered into the table. -/
def Tag.code : Tag → Nat
  | Tag.none => 0x00
  | Tag.nameStart => 0x01
  | Tag.name => 0x02

/-- The textual literal used for a tag in the generated source text. -/
def Tag.lit : Tag → String
  | Tag.none => "0x00"
  | Tag.nameStart => "0x01"
  | Tag.name => "0x02"

/-- Source line `name_start_code_point = "0x01"`. -/
def name_start_code_point : String := "0x01"

/-- Source line `name_code_point = "0x02"`. -/
def name_code_point : String := "0x02"

/-- Source line `def_before = "#define LXB_CSS_SYNTAX_RES_NAME_START " + name_start_code_point`. -/
def def_before : String :=
  "#define LXB_CSS_SYNTAX_RES_NAME_START " ++ name_start_code_point

/-- Modelled from the spec: the Table Encoder collaborator
`lexbor.LXB.Res` (file `utils/lexbor/LXB.py`, absent from the provided
sources).  Per section 4.2 it is constructed from a type name, an array
identifier, a read-only flag and a capacity, and accumulates appended
values in order. -/
structure Res where
  typeName : String
  arrayName : String
  readOnly : Bool
  capacity : Nat
  buffer : List String
deriving DecidableEq, Repr

/-- Modelled from the spec: `construct(typeName, arrayName, isReadOnly, capacity)`
starts with an empty accumulation buffer. -/
def Res.make (typeName arrayName : String) (readOnly : Bool) (capacity : Nat) : Res :=
  ⟨typeName, arrayName, readOnly, capacity, []⟩

/-- Modelled from the spec: `append(handle, value)` adds one value at the
end of the buffer; the encoder never reorders or deduplicates. -/
def Res.append (r : Res) (v : String) : Res :=
  { r with buffer := r.buffer ++ [v] }

/-- Modelled from the spec (sections 4.2 and 6): `render`/`create` is a
single stateless pass producing the prepended literal line, the array
declaration header, the body wrapped at `cols` comma-separated entries
per row, and the closing terminator, each line ending in a newline. -/
def Res.create (r : Res) (cols : Nat) (useHexLiterals : Bool) (before : String) :
    List String :=
  let header :=
    (if r.readOnly then "static const " else "static ") ++
      r.typeName ++ " " ++ r.arrayName ++ "[" ++ toString r.capacity ++ "] = \x7b\n"
  let rows := (List.toChunks cols r.buffer).map
    (fun row => "    " ++ String.intercalate ", " row ++ ",\n")
  let _ := useHexLiterals
  (before ++ "\n") :: header :: (rows ++ ["\x7d;\n"])

/-- Classification chain of the `name()` loop body, embedded clause for
clause from the Python `if`/`elif` chain; the final `else` appends
`"0x00"`, i.e. the `none` tag.  The domain is `Int` because Python
integers are unbounded and the chain itself has no range guard. -/
def classify (code : Int) : Tag :=
  if 0x61 ≤ code ∧ code ≤ 0x7A then Tag.nameStart
  else if 0x41 ≤ code ∧ code ≤ 0x5A then Tag.nameStart
  else if 0x30 ≤ code ∧ code ≤ 0x39 then Tag.name
  else if 0xC0 ≤ code ∧ code ≤ 0xD6 then Tag.nameStart
  else if 0xD8 ≤ code ∧ code ≤ 0xF6 then Tag.nameStart
  else if 0xF8 ≤ code ∧ code ≤ 0xFF then Tag.nameStart
  else if code = 0x5F then Tag.nameStart
  else if code = 0xB7 then Tag.nameStart
  else if code = 0x2D then Tag.name
  else Tag.none

/-- One iteration of the `for code in range(0, 255)` loop body: every
branch of the chain appends exactly one literal to the encoder. -/
def nameStep (res : Res) (code : Int) : Res :=
  if 0x61 ≤ code ∧ code ≤ 0x7A then res.append name_start_code_point
  else if 0x41 ≤ code ∧ code ≤ 0x5A then res.append name_start_code_point
  else if 0x30 ≤ code ∧ code ≤ 0x39 then res.append name_code_point
  else if 0xC0 ≤ code ∧ code ≤ 0xD6 then res.append name_start_code_point
  else if 0xD8 ≤ code ∧ code ≤ 0xF6 then res.append name_start_code_point
  else if 0xF8 ≤ code ∧ code ≤ 0xFF then res.append name_start_code_point
  else if code = 0x5F then res.append name_start_code_point
  else if code = 0xB7 then res.append name_start_code_point
  else if code = 0x2D then res.append name_code_point
  else res.append "0x00"

/-- Byte values visited by the driver loop: Python `range(0, 255)`,
i.e. `0, 1, ..., 254`. -/
def driverCodes : List Nat := List.range 255

/-- State of the encoder after the driver loop of `name()` has run:
`res = Res("lxb_char_t", "lxb_css_syntax_res_name_map", True, 256)`
followed by one `append` per visited byte value. -/
def nameRes : Res :=
  driverCodes.foldl (fun r code => nameStep r (Int.ofNat code))
    (Res.make "lxb_char_t" "lxb_css_syntax_res_name_map" true 256)

/-- The function `name()`: run the driver loop, render with
`res.create(10, True, def_before)`, and join the produced lines
(`''.join(map_list)`). -/
def name (u : Unit) : String :=
  let _ := u
  String.join (nameRes.create 10 true def_before)

/-- Read one rendered body row back: split it at the commas and strip
the decorative spaces and the final newline, keeping the bare literals. -/
def parseRow (s : String) : List String :=
  ((s.toList.splitOn ',').map
      (fun cs => String.mk (cs.filter (fun c => !(c == ' ' || c == '\n'))))).filter
    (fun e => !(e == ""))

/-- Read a rendered table back into the sequence of entry literals:
skip the prepended constant line and the declaration header, drop the
closing terminator, and split every remaining row at its commas. -/
def parseRendered (lines : List String) : List String :=
  (((lines.drop 2).dropLast).map parseRow).flatten

/-- Classification rules as an ordered list of boolean clauses paired
with the tag they select, in the exact precedence of the source chain. -/
def rules : List ((Int → Bool) × Tag) :=
  [ (fun c => decide (0x61 ≤ c) && decide (c ≤ 0x7A), Tag.nameStart),
    (fun c => decide (0x41 ≤ c) && decide (c ≤ 0x5A), Tag.nameStart),
    (fun c => decide (0x30 ≤ c) && decide (c ≤ 0x39), Tag.name),
    (fun c => decide (0xC0 ≤ c) && decide (c ≤ 0xD6), Tag.nameStart),
    (fun c => decide (0xD8 ≤ c) && decide (c ≤ 0xF6), Tag.nameStart),
    (fun c => decide (0xF8 ≤ c) && decide (c ≤ 0xFF), Tag.nameStart),
    (fun c => decide (c = 0x5F), Tag.nameStart),
    (fun c => decide (c = 0xB7), Tag.nameStart),
    (fun c => decide (c = 0x2D), Tag.name) ]

/-- First-match evaluation of a rule list, defaulting to `Tag.none` when
no clause matches (the final `else` of the chain). -/
def applyRules : List ((Int → Bool) × Tag) → Int → Tag
  | [], _ => Tag.none
  | r :: rest, c => if r.1 c then r.2 else applyRules rest c

/-- When at most one clause of a rule list matches `c`, first-match
evaluation is invariant under any permutation of the list. -/
theorem applyRules_perm_invariant {l₁ l₂ : List ((Int → Bool) × Tag)}
    (h : l₁.Perm l₂) (c : Int) :
    l₁.countP (fun r => r.1 c) ≤ 1 → applyRules l₁ c = applyRules l₂ c := by
  induction h with
  | nil => intro _; rfl
  | cons x h ih =>
    intro hc
    simp only [applyRules]
    by_cases hx : x.1 c
    · simp [hx]
    · simp only [hx, if_false]
      refine ih ?_
      refine le_trans ?_ hc
      simp [List.countP_cons]
  | swap x y l =>
    intro hc
    by_cases hx : x.1 c <;> by_cases hy : y.1 c
    · exfalso
      simp only [List.countP_cons, hx, hy, if_true] at hc
      omega
    · simp [applyRules, hx, hy]
    · simp [applyRules, hx, hy]
    · simp [applyRules, hx, hy]
  | trans h₁ h₂ ih₁ ih₂ =>
    intro hc
    rw [ih₁ hc, ih₂ (by rw [← h₁.countP_eq]; exact hc)]

set_option maxRecDepth 16000 in
/-- The first-match evaluation of the rule list agrees with the embedded
classification chain on the whole byte domain. -/
theorem applyRules_eq_classify : ∀ n : Nat, n < 256 → applyRules rules n = classify n := by
  decide

set_option maxRecDepth 16000 in
/-- C1 counterexample: the generator's driver loop `range(0, 255)` calls
`append` 255 times, not 256, so the accumulated table does not have the
declared fixed length 256 that the claim states. -/
theorem append_count_is_255_not_256 :
    nameRes.buffer.length = 255 ∧ nameRes.buffer.length ≠ 256 ∧ nameRes.capacity = 256 := by
  refine ⟨by decide, ?_, by decide⟩
  intro h
  have h' : nameRes.buffer.length = 255 := by decide
  omega

set_option maxRecDepth 16000 in
/-- C1 amended: the table accumulated by a run of the generator has
exactly 255 entries — one fewer than the declared capacity 256 — one per
byte value 0..254, appended in strictly ascending byte-value order, with
the entry of each byte value being the literal of its classification. -/
theorem table_has_255_ascending_entries :
    nameRes.buffer.length = 255 ∧ nameRes.capacity = 256 ∧
      nameRes.buffer = driverCodes.map (fun c => (classify c).lit) ∧
      ∀ i < 254, driverCodes.getD i 0 < driverCodes.getD (i + 1) 0 := by
  refine ⟨by decide, by decide, by decide, by decide⟩

/-- C2: every value of the NameStart ranges and singletons
([0x61,0x7A] ∪ [0x41,0x5A] ∪ [0xC0,0xD6] ∪ [0xD8,0xF6] ∪ [0xF8,0xFF] ∪
\x7b0x5F, 0xB7\x7d) classifies as the NameStart tag, whose numeric code
is 0x01. -/
theorem classify_name_start_ranges (v : Int)
    (h : (0x61 ≤ v ∧ v ≤ 0x7A) ∨ (0x41 ≤ v ∧ v ≤ 0x5A) ∨ (0xC0 ≤ v ∧ v ≤ 0xD6) ∨
      (0xD8 ≤ v ∧ v ≤ 0xF6) ∨ (0xF8 ≤ v ∧ v ≤ 0xFF) ∨ v = 0x5F ∨ v = 0xB7) :
    classify v = Tag.nameStart ∧ (classify v).code = 0x01 := by
  have hv : classify v = Tag.nameStart := by
    unfold classify
    rcases h with h | h | h | h | h | h | h <;> split_ifs <;> first | rfl | (exfalso; omega)
  exact ⟨hv, by rw [hv]; rfl⟩

/-- C2 witness: instantiation at the concrete value 0x61. -/
theorem classify_name_start_ranges_witness :
    classify 0x61 = Tag.nameStart ∧ (classify 0x61).code = 0x01 :=
  classify_name_start_ranges 0x61 (Or.inl (by decide))

/-- C3: every value of [0x30,0x39] ∪ \x7b0x2D\x7d classifies as the Name
tag, whose numeric code is 0x02. -/
theorem classify_name_ranges (v : Int)
    (h : (0x30 ≤ v ∧ v ≤ 0x39) ∨ v = 0x2D) :
    classify v = Tag.name ∧ (classify v).code = 0x02 := by
  have hv : classify v = Tag.name := by
    unfold classify
    rcases h with h | h <;> split_ifs <;> first | rfl | (exfalso; omega)
  exact ⟨hv, by rw [hv]; rfl⟩

/-- C3 witness: instantiation at the concrete value 0x2D. -/
theorem classify_name_ranges_witness :
    classify 0x2D = Tag.name ∧ (classify 0x2D).code = 0x02 :=
  classify_name_ranges 0x2D (Or.inr rfl)

/-- C4: every byte value in [0,255] matched by no NameStart or Name
clause classifies as the None tag, whose numeric code is 0x00; the six
concrete scenarios of the spec also hold. -/
theorem classify_default_none (v : Int) (h0 : 0 ≤ v) (h1 : v ≤ 255)
    (h : ¬ ((0x61 ≤ v ∧ v ≤ 0x7A) ∨ (0x41 ≤ v ∧ v ≤ 0x5A) ∨ (0xC0 ≤ v ∧ v ≤ 0xD6) ∨
      (0xD8 ≤ v ∧ v ≤ 0xF6) ∨ (0xF8 ≤ v ∧ v ≤ 0xFF) ∨ v = 0x5F ∨ v = 0xB7 ∨
      (0x30 ≤ v ∧ v ≤ 0x39) ∨ v = 0x2D)) :
    classify v = Tag.none ∧ (classify v).code = 0x00 ∧
      classify 0x61 = Tag.nameStart ∧ classify 0x39 = Tag.name ∧
      classify 0x2D = Tag.name ∧ classify 0x00 = Tag.none ∧
      classify 0xB7 = Tag.nameStart ∧ classify 0xD7 = Tag.none := by
  have hv : classify v = Tag.none := by
    unfold classify
    split_ifs <;> first | rfl | (exfalso; omega)
  exact ⟨hv, by rw [hv]; rfl, by decide, by decide, by decide, by decide, by decide,
    by decide⟩

/-- C4 witness: instantiation at the concrete value 0x20. -/
theorem classify_default_none_witness :
    classify 0x20 = Tag.none ∧ (classify 0x20).code = 0x00 ∧
      classify 0x61 = Tag.nameStart ∧ classify 0x39 = Tag.name ∧
      classify 0x2D = Tag.name ∧ classify 0x00 = Tag.none ∧
      classify 0xB7 = Tag.nameStart ∧ classify 0xD7 = Tag.none :=
  classify_default_none 0x20 (by decide) (by decide) (by decide)

/-- C5 counterexample: the classification chain has no domain guard —
invoked at 300 and at -7, both outside [0,255], it silently returns the
None tag instead of rejecting with a fatal DomainError. -/
theorem classify_out_of_domain_returns_tag :
    classify 300 = Tag.none ∧ classify (-7) = Tag.none := by
  exact ⟨by decide, by decide⟩

set_option maxRecDepth 16000 in
/-- C5 amended: for every integer outside [0,255] the classification
chain matches no clause and falls through to the default None tag — it
is never rejected; the only protection is the driver's fixed iteration
range, which visits byte values 0..254 only. -/
theorem classify_out_of_domain_none (v : Int) (h : v < 0 ∨ 255 < v) :
    classify v = Tag.none ∧ ∀ c ∈ driverCodes, c ≤ 254 := by
  constructor
  · unfold classify
    split_ifs <;> first | rfl | (exfalso; omega)
  · decide

set_option maxRecDepth 16000 in
/-- C5 witness: instantiation at the concrete value 300. -/
theorem classify_out_of_domain_none_witness :
    classify 300 = Tag.none ∧ ∀ c ∈ driverCodes, c ≤ 254 :=
  classify_out_of_domain_none 300 (Or.inr (by decide))

set_option maxRecDepth 16000 in
/-- C6: the generation is deterministic — `name` takes no input, and any
two runs produce the identical output text; the output of a run is a
fixed text of 1741 bytes. -/
theorem generation_deterministic :
    (∀ u₁ u₂ : Unit, name u₁ = name u₂) ∧ (name ()).length = 1741 := by
  exact ⟨fun _ _ => rfl, by decide⟩

set_option maxRecDepth 16000 in
/-- C7: the nine non-default clauses are pairwise disjoint on [0,255] —
at most one matches any byte value — and therefore evaluating any
permutation of the rule list by first match yields the same
classification function. -/
theorem clauses_disjoint_order_irrelevant (n : Nat) (h : n < 256) :
    (rules.countP (fun r => r.1 (n : Int))) ≤ 1 ∧
      ∀ l, rules.Perm l → applyRules l (n : Int) = classify (n : Int) := by
  have hcount : ∀ m : Nat, m < 256 → (rules.countP (fun r => r.1 (m : Int))) ≤ 1 := by
    decide
  refine ⟨hcount n h, fun l hl => ?_⟩
  rw [← applyRules_perm_invariant hl (n : Int) (hcount n h)]
  exact applyRules_eq_classify n h

/-- C7 witness: instantiation at the concrete byte value 0x61 with the
identity permutation. -/
theorem clauses_disjoint_order_irrelevant_witness :
    (rules.countP (fun r => r.1 ((0x61 : Nat) : Int))) ≤ 1 ∧
      applyRules rules ((0x61 : Nat) : Int) = classify ((0x61 : Nat) : Int) :=
  ⟨(clauses_disjoint_order_irrelevant 0x61 (by decide)).1,
    (clauses_disjoint_order_irrelevant 0x61 (by decide)).2 rules (List.Perm.refl rules)⟩

set_option maxRecDepth 16000 in
/-- C8 counterexample: the sequence accumulated in the Encoder has 255
entries, not 256, so parsing the rendered rows cannot reproduce a
256-entry tag sequence: the parse of the render also has 255 entries. -/
theorem roundtrip_sequence_not_256 :
    nameRes.buffer.length = 255 ∧
      (parseRendered (nameRes.create 10 true def_before)).length = 255 ∧
      (parseRendered (nameRes.create 10 true def_before)).length ≠ 256 := by
  refine ⟨by decide, by decide, ?_⟩
  intro h
  have h' : (parseRendered (nameRes.create 10 true def_before)).length = 255 := by decide
  omega

set_option maxRecDepth 16000 in
/-- C8 amended: parsing the comma-separated rows of the rendered output
text back into a sequence of values reproduces exactly the original
255-entry tag sequence accumulated in the Encoder. -/
theorem parse_render_roundtrip_255 :
    parseRendered (nameRes.create 10 true def_before) = nameRes.buffer := by
  decide

set_option maxRecDepth 16000 in
/-- C9: the driver loop classifies and appends tags for exactly the byte
values 0 through 254 in strictly ascending order — 255 appends in total;
byte value 255 is never visited even though the Encoder is constructed
with capacity 256, and the rules would tag 0xFF as NameStart. -/
theorem driver_visits_0_to_254_only :
    nameRes.buffer.length = 255 ∧ driverCodes.length = 255 ∧
      (∀ i < 254, driverCodes.getD i 0 < driverCodes.getD (i + 1) 0) ∧
      (∀ c ∈ driverCodes, c ≤ 254) ∧
      (255 : Nat) ∉ driverCodes ∧ nameRes.capacity = 256 ∧
      nameRes.buffer = driverCodes.map (fun c => (classify c).lit) ∧
      classify 255 = Tag.nameStart := by
  refine ⟨by decide, by decide, by decide, by decide, by decide, by decide, by decide,
    by decide⟩

set_option maxRecDepth 16000 in
/-- C10: the prepended `#define LXB_CSS_SYNTAX_RES_NAME_START` constant
carries the literal `0x01` — the same `name_start_code_point` literal
that is appended for every NameStart entry of the table, so the define
and the table entries agree within one run by construction. -/
theorem define_and_entries_share_literal :
    def_before = "#define LXB_CSS_SYNTAX_RES_NAME_START " ++ name_start_code_point ∧
      name_start_code_point = "0x01" ∧ Tag.nameStart.lit = name_start_code_point ∧
      Tag.nameStart.code = 0x01 ∧
      ∀ c ∈ driverCodes, classify c = Tag.nameStart →
        nameRes.buffer.getD c "" = name_start_code_point := by
  refine ⟨rfl, rfl, rfl, rfl, by decide⟩

end CssSyntaxDefinitions
